import Mathlib

/-!
Shallow embedding of the STM tip-etching controller firmware core:
the fixed-point moving average (MovingAverage.cpp), the windowed RMS
current sensor (CurrentSenros.cpp), the non-blocking stepper driver
(StepperDriver.cpp), and the HOME / MOD1 / MOD2 process state machines
(Modes.cpp).  C `float` values are modelled as exact rationals, the
32-bit unsigned timer arithmetic is modelled explicitly modulo 2^32,
and `sqrtf` (used only when a sensor window holds at least one sample)
is abstracted as a function parameter.
-/

set_option maxRecDepth 4096

/-- 2^32, the modulus of `unsigned long` / `uint32_t` arithmetic on the target. -/
def M32 : ℕ := 4294967296

/-- Truncation of a natural number to 32 bits (storage in a `uint32_t`). -/
def u32 (n : ℕ) : ℕ := n % M32

/-- The value of the C expression `a - b` at `unsigned long` (32-bit) type. -/
def usub32 (a b : ℕ) : ℕ := (a + (M32 - b % M32)) % M32

/-- Reinterpretation of a 32-bit unsigned value as `int32_t` (two's complement). -/
def toInt32 (n : ℕ) : ℤ := if n % M32 < 2147483648 then (n % M32 : ℤ) else (n % M32 : ℤ) - (M32 : ℤ)

/-- The C test `(int32_t)(a - b) >= 0` on `unsigned long` operands. -/
def i32nonneg (n : ℕ) : Bool := decide (n % M32 < 2147483648)

/-- Value of a C `bool` used in an arithmetic (float) context: `true ↦ 1.0`, `false ↦ 0.0`.
Models the implicit conversion in expressions such as `(I <= I) <= t`. -/
def cppLe (a b : ℚ) : ℚ := if a ≤ b then 1 else 0

/-- `lroundf`: round to nearest integer, halfway cases away from zero. -/
def lroundQ (x : ℚ) : ℤ := if 0 ≤ x then ⌊x + 1/2⌋ else -⌊(1/2) - x⌋

namespace MovingAverage

/-- `MovingAverage<N,SCALE>::toFixed_`: scale, clamp to the `int16_t` range
(the clamp is applied to the scaled float, as in the source), then `lroundf`. -/
def toFixed (S : ℚ) (xA : ℚ) : ℤ :=
  let xmA := xA * S
  let xmA := if 32767 < xmA then (32767 : ℚ) else xmA
  let xmA := if xmA < -32768 then (-32768 : ℚ) else xmA
  lroundQ xmA

/-- State of a `MovingAverage<N,SCALE>` object: circular buffer (only indices
`< N` are ever read), write index, filled flag and running integer sum. -/
structure MAState where
  buf : ℕ → ℤ
  idx : ℕ
  filled : Bool
  sum : ℤ

/-- `MovingAverage::reset(x0A)`: fill all `N` slots with the fixed-point value of
`x0A`, rebuild the sum, and mark the window filled iff that value is nonzero. -/
def reset (N : ℕ) (S : ℚ) (x0A : ℚ) : MAState :=
  let x0 := toFixed S x0A
  { buf := fun _ => x0, idx := 0, filled := decide (x0 ≠ 0), sum := (N : ℤ) * x0 }

/-- `MovingAverage::update(xA)`: evict the slot at `idx`, insert the new
fixed-point sample, advance the index (wrapping sets `filled`), and return the
average `sum / denom / SCALE` with `denom = N` once filled else the number of
samples inserted so far (guarded to be at least 1). -/
def update (N : ℕ) (S : ℚ) (s : MAState) (xA : ℚ) : MAState × ℚ :=
  let x := toFixed S xA
  let s2 : MAState :=
    { buf := Function.update s.buf s.idx x
      idx := if N ≤ s.idx + 1 then 0 else s.idx + 1
      filled := if N ≤ s.idx + 1 then true else s.filled
      sum := s.sum - s.buf s.idx + x }
  let denom0 : ℤ := if s2.filled then (N : ℤ) else (s2.idx : ℤ)
  let denom : ℤ := if denom0 ≤ 0 then 1 else denom0
  (s2, ((s2.sum : ℚ) / (denom : ℚ)) / S)

/-- Feed a list of samples into a filter freshly initialised with `reset(0)`
(the constructor default); returns the final state and the value returned by
the last `update` call (`0` if no sample was fed). -/
def run (N : ℕ) (S : ℚ) (xs : List ℚ) : MAState × ℚ :=
  xs.foldl (fun p x => update N S p.1 x) (reset N S 0, 0)

/-- The fixed-point images of a sample list. -/
def fixList (S : ℚ) (xs : List ℚ) : List ℤ := xs.map (toFixed S)

/-- The last `min N (length fs)` elements of `fs` (the live window). -/
def lastWindow (N : ℕ) (fs : List ℤ) : List ℤ := fs.drop (fs.length - min N fs.length)

/-- Sum of the live window. -/
def winSum (N : ℕ) (fs : List ℤ) : ℤ := (lastWindow N fs).sum

/-- Intended content of buffer slot `i` after `L` samples have been inserted
into an `N`-slot circular buffer initialised to zero: the value written at the
largest position `j < L` with `j % N = i`, or `0` if no such position exists. -/
def slotSpec (N L : ℕ) (fs : List ℤ) (i : ℕ) : ℤ :=
  if i < L % N then fs.getD (L - L % N + i) 0
  else if N ≤ L then fs.getD (L - L % N + i - N) 0
  else 0

end MovingAverage

namespace CurrentSensor

/-- Configuration parameters of a `CurrentSensor` (constructor arguments). -/
structure Config where
  Vref : ℚ
  adcMaxValue : ℚ
  k_cal : ℚ
  sampleWindow_us : ℕ
  sampleInterval_us : ℕ

/-- Mutable state of a `CurrentSensor` object. -/
structure State where
  enabled : Bool
  nextSampleTime : ℕ
  windowStart : ℕ
  adcMin : ℤ
  adcMax : ℤ
  Vpp : ℚ
  Irms : ℚ
  sumV : ℚ
  sumV2 : ℚ
  nSamples : ℕ

/-- `CurrentSensor::update()` for one loop tick, given the current `micros()`
value and the ADC reading that `analogRead` would return.  `sqrtF` abstracts
the C library `sqrtf` (only evaluated when a window closes with at least one
sample).  A disabled sensor returns immediately; otherwise a sample is taken
when due (overflow-safe signed comparison), and when the window has elapsed
the statistics are published and reset, the window boundary advancing by
exactly one window length. -/
def update (sqrtF : ℚ → ℚ) (cfg : Config) (now : ℕ) (adc : ℤ) (s : State) : State :=
  if s.enabled then
    let s :=
      if i32nonneg (usub32 now s.nextSampleTime) then
        let v := (adc : ℚ) * (cfg.Vref / cfg.adcMaxValue)
        { s with nextSampleTime := u32 (s.nextSampleTime + cfg.sampleInterval_us)
                 adcMin := if adc < s.adcMin then adc else s.adcMin
                 adcMax := if s.adcMax < adc then adc else s.adcMax
                 sumV := s.sumV + v
                 sumV2 := s.sumV2 + v * v
                 nSamples := s.nSamples + 1 }
      else s
    if toInt32 cfg.sampleWindow_us ≤ toInt32 (usub32 now s.windowStart) then
      let span := s.adcMax - s.adcMin
      let span := if span < 0 then 0 else span
      let s1 :=
        if 0 < s.nSamples then
          let meanV := s.sumV / (s.nSamples : ℚ)
          let meanV2 := s.sumV2 / (s.nSamples : ℚ)
          let varV := meanV2 - meanV * meanV
          let varV := if varV < 0 then 0 else varV
          { s with Irms := cfg.k_cal * sqrtF varV }
        else s
      { s1 with windowStart := u32 (s.windowStart + cfg.sampleWindow_us)
                Vpp := (span : ℚ) * (cfg.Vref / cfg.adcMaxValue)
                adcMin := 1023
                adcMax := 0
                sumV := 0
                sumV2 := 0
                nSamples := 0 }
    else s
  else s

end CurrentSensor

namespace StepperDriver

/-- Motion mode of the stepper driver. -/
inductive Motion
  | Idle
  | Velocity
  | ToTarget
deriving DecidableEq

/-- Construction-time configuration: the steps-per-mm factor and the default
speed (`max_mm_s / 2` in the constructor). -/
structure Config where
  stepsPerMm : ℚ
  default_mm_s : ℚ

/-- Mutable state of a `StepperDriver` object. -/
structure State where
  pos_steps : ℤ
  speed_mm_s : ℚ
  dir : Bool
  tNextStep : ℕ
  motion : Motion
  target_steps : ℤ
deriving DecidableEq

/-- `StepperDriver::positionMm()`. -/
def positionMm (cfg : Config) (s : State) : ℚ := (s.pos_steps : ℚ) / cfg.stepsPerMm

/-- `StepperDriver::setSpeedMmPerSec(v)`: clamp to `±2·default`, set
velocity/idle motion mode, update the direction flag, and reset the step
deadline only when starting from idle. -/
def setSpeedMmPerSec (cfg : Config) (v0 : ℚ) (s : State) : State :=
  let vmax := cfg.default_mm_s * 2
  let v := if vmax < v0 then vmax else v0
  let v := if v < -vmax then -vmax else v
  let wasIdle := s.motion = Motion.Idle ∨ s.speed_mm_s = 0
  { s with
    speed_mm_s := v
    motion := if v = 0 then Motion.Idle else Motion.Velocity
    dir := decide (0 ≤ v)
    tNextStep := if v ≠ 0 ∧ wasIdle then 0 else s.tNextStep }

/-- `StepperDriver::stepOnce_()`: emit one pulse and move the dead-reckoned
position by one step in the current direction. -/
def stepOnce (s : State) : State :=
  { s with pos_steps := s.pos_steps + (if s.dir then 1 else -1) }

/-- `StepperDriver::moveToMm(x_mm, v_mm_s)`: round the target to steps, derive
the direction from the sign of (target - position), take the magnitude of the
requested speed, substitute the default speed when that magnitude is not
positive, clamp to `2·default`, and enter target mode with an immediate first
step. -/
def moveToMm (cfg : Config) (x_mm v_mm_s : ℚ) (s : State) : State :=
  let tgt := lroundQ (x_mm * cfg.stepsPerMm)
  let goPos := s.pos_steps < tgt
  let v := |v_mm_s|
  let v := if v ≤ 0 then cfg.default_mm_s else v
  let vmax := cfg.default_mm_s * 2
  let v := if vmax < v then vmax else v
  { s with
    target_steps := tgt
    dir := decide goPos
    speed_mm_s := if goPos then v else -v
    motion := Motion.ToTarget
    tNextStep := 0 }

/-- `StepperDriver::moveRelativeMm(dx, v)`. -/
def moveRelativeMm (cfg : Config) (dx_mm v_mm_s : ℚ) (s : State) : State :=
  moveToMm cfg (positionMm cfg s + dx_mm) v_mm_s s

/-- The step period in microseconds computed by `update()` from the current
speed (float division truncated by the `uint32_t` cast). -/
def stepPeriodUs (cfg : Config) (s : State) : ℕ :=
  u32 (⌊(1000000 : ℚ) / (|s.speed_mm_s| * cfg.stepsPerMm)⌋).toNat

/-- `StepperDriver::update()` at `micros() = now`: idle path refreshes the
deadline; too-slow speeds produce no pulse; otherwise, when the deadline has
passed (overflow-safe), the next deadline is written as `now + period`, one
step is emitted, and a target-mode move self-terminates once the position
reaches or crosses the target in the direction of travel. -/
def update (cfg : Config) (now : ℕ) (s : State) : State :=
  if s.motion = Motion.Idle ∧ s.speed_mm_s = 0 then { s with tNextStep := u32 now }
  else
    let stepsPerSec := |s.speed_mm_s| * cfg.stepsPerMm
    if stepsPerSec < 1 then s
    else
      let t0 := if s.tNextStep = 0 then u32 now else s.tNextStep
      if i32nonneg (usub32 now t0) then
        let s1 := stepOnce { s with tNextStep := u32 (now + stepPeriodUs cfg s) }
        if s1.motion = Motion.ToTarget then
          if s1.dir then
            if s1.target_steps ≤ s1.pos_steps then
              { s1 with speed_mm_s := 0, motion := Motion.Idle }
            else s1
          else
            if s1.pos_steps ≤ s1.target_steps then
              { s1 with speed_mm_s := 0, motion := Motion.Idle }
            else s1
        else s1
      else { s with tNextStep := t0 }

/-- `StepperDriver::isBusy()`: true exactly in target mode. -/
def isBusy (s : State) : Bool := decide (s.motion = Motion.ToTarget)

end StepperDriver

namespace Modes

/-- States of the MOD1 machine (`Mod1Mode::State`). -/
inductive M1St
  | MovingDownDetect
  | Wait1
  | MoveDown1
  | Wait2
  | Validate30V
  | RelayHold
  | Etching
  | MoveUpBump
  | FinalLift
  | Done
deriving DecidableEq

/-- States of the MOD2 machine (`Mod2Mode::State`). -/
inductive M2St
  | MovingDownDetect
  | Wait1
  | MoveDown1
  | Wait2
  | Validate30V
  | RelayHold
  | Wait3
  | MoveDown2
  | Wait4
  | RelayPulse
  | FinalLift
  | Done
deriving DecidableEq

/-- Inputs a mode's `step()` reads from its collaborators during one tick:
`millis()`, the stepper position, the corrected and raw RMS currents, the
stepper busy flag, and the homing limit-switch level. -/
structure Env where
  now : ℕ
  z : ℚ
  irms : ℚ
  iraw : ℚ
  busy : Bool
  limitLow : Bool

/-- Observable actions a single `step()` call performs on its collaborators:
the return value, the `moveRelativeMm` calls issued (distance, speed), whether
the 9 V ON relay combination was written this tick, the total blocking
`delay()` milliseconds executed, and any `setPositionMm` / global-baseline
writes. -/
structure StepOut where
  ret : Bool := false
  moveCmds : List (ℚ × ℚ) := []
  on9V : Bool := false
  delayMs : ℕ := 0
  setPosCmd : Option ℚ := none
  baselineWrite : Option ℚ := none

/-- `Mod1Params` (gParams.mod1). -/
structure Mod1P where
  plungeAfterSurface_mm : ℚ
  etchingThreshold_A : ℚ
  retractSpeed_mm_s : ℚ

/-- `Mod2Params` (gParams.mod2).  `pulseCount` is a C `int`. -/
structure Mod2P where
  plungeAfterSurface_mm : ℚ
  etchingThreshold_A : ℚ
  plungeAfterEtch_mm : ℚ
  pulseCount : ℤ
  pulseOn_s : ℚ
  pulseOff_s : ℚ

/-- State of a `Mod1Mode` object together with the shared outputs it drives:
relay levels (`true` = HIGH), last commanded stepper speed, and the current
sensor enable flag. -/
structure Mod1S where
  st : M1St
  relay1 : Bool
  relay2 : Bool
  speedCmd : ℚ
  senseEnabled : Bool
  iavg : MovingAverage.MAState
  iavgS : MovingAverage.MAState
  waitStart : ℕ
  validateStart : ℕ
  etchStart : ℕ
  stopTime : ℕ
  bumpedUp1mm : Bool

/-- State of a `Mod2Mode` object together with the shared outputs it drives.
`pulseCount` is the `uint8_t` pulse counter (wraps modulo 256). -/
structure Mod2S where
  st : M2St
  relay1 : Bool
  relay2 : Bool
  speedCmd : ℚ
  senseEnabled : Bool
  iavg : MovingAverage.MAState
  iavgS : MovingAverage.MAState
  waitStart : ℕ
  validateStart : ℕ
  etchStart : ℕ
  pulseStart : ℕ
  relayOn : Bool
  pulseCount : ℕ

/-- `Mod1Mode::step()`.  Translated branch by branch from the source; every
branch of the C function ends in a `return`, so the sequential `if (st_ == X)`
tests form an else-if chain on the state value, rendered here as a `match`.
The long moving average has window 200, the short one 20, both with scale
1000 (`IAvg_t`, `IAvg_s`); states with no branch fall through to
`return st_ == Done`. -/
def mod1Step (pp : Mod1P) (thr : ℚ) (e : Env) (s : Mod1S) : Mod1S × StepOut :=
  if e.z ≤ 3/2 ∨ 75 ≤ e.z then
    ({ s with speedCmd := 0, senseEnabled := false, relay1 := true, relay2 := true,
              st := M1St.Done },
     { ret := true })
  else
    match s.st with
    | M1St.MovingDownDetect =>
        let p := MovingAverage.update 20 1000 s.iavgS e.irms
        let s := { s with iavgS := p.1 }
        if thr ≤ p.2 then
          ({ s with speedCmd := 0, stopTime := e.now, relay1 := true, relay2 := true,
                    waitStart := e.now, st := M1St.Wait1 }, {})
        else (s, {})
    | M1St.Wait1 =>
        if 1000 ≤ usub32 e.now s.waitStart then
          ({ s with st := M1St.MoveDown1 }, { moveCmds := [(pp.plungeAfterSurface_mm, 1)] })
        else (s, {})
    | M1St.MoveDown1 =>
        if e.busy then (s, {}) else ({ s with waitStart := e.now, st := M1St.Wait2 }, {})
    | M1St.Wait2 =>
        if 1000 ≤ usub32 e.now s.waitStart then
          ({ s with relay1 := true, relay2 := false, validateStart := e.now,
                    iavg := MovingAverage.reset 200 1000 0,
                    iavgS := MovingAverage.reset 20 1000 0,
                    st := M1St.Validate30V }, {})
        else (s, {})
    | M1St.Validate30V =>
        let p := MovingAverage.update 20 1000 s.iavgS e.irms
        let s := { s with iavgS := p.1 }
        if (1 : ℚ)/2 ≤ p.2 then
          ({ s with etchStart := e.now, st := M1St.RelayHold }, {})
        else if 500 ≤ usub32 e.now s.validateStart then
          ({ s with relay1 := true, relay2 := true, speedCmd := 3,
                    st := M1St.MovingDownDetect }, {})
        else (s, {})
    | M1St.RelayHold =>
        let p := MovingAverage.update 200 1000 s.iavg e.irms
        let s := { s with iavg := p.1 }
        if usub32 e.now s.etchStart < 2000 then (s, {})
        else ({ s with speedCmd := -pp.retractSpeed_mm_s, st := M1St.Etching }, {})
    | M1St.Etching =>
        let p := MovingAverage.update 200 1000 s.iavg e.irms
        let s := { s with iavg := p.1 }
        if p.2 < pp.etchingThreshold_A then
          ({ s with speedCmd := 0, relay1 := true, relay2 := true, st := M1St.FinalLift },
           { moveCmds := [(-30, 3)] })
        else (s, {})
    | M1St.MoveUpBump => (s, { ret := false })
    | M1St.FinalLift =>
        if e.busy then (s, {})
        else ({ s with senseEnabled := false, st := M1St.Done }, { ret := true })
    | M1St.Done => (s, { ret := true })

/-- `Mod2Mode::step()`.  Translated branch by branch from the source; every
branch of the C function ends in a `return`, so the sequential `if (st_ == X)`
tests form an else-if chain on the state value, rendered here as a `match`.
The RelayHold completion test is the literal translation of the C expression
`I <= I <= gParams.mod2.etchingThreshold_A`, which parses as
`(I <= I) <= threshold` with the boolean converted to `1.0` or `0.0`.
The `uint8_t` pulse counter increments modulo 256 and is promoted to `int`
for the comparison against the configured pulse count. -/
def mod2Step (pp : Mod2P) (thr : ℚ) (e : Env) (s : Mod2S) : Mod2S × StepOut :=
  if e.z ≤ 3/2 ∨ 75 ≤ e.z then
    ({ s with speedCmd := 0, senseEnabled := false, relay1 := true, relay2 := true,
              st := M2St.Done },
     { ret := true })
  else
    match s.st with
    | M2St.MovingDownDetect =>
        if thr ≤ e.irms then
          ({ s with speedCmd := 0, relay1 := true, relay2 := true,
                    waitStart := e.now, st := M2St.Wait1 }, {})
        else (s, {})
    | M2St.Wait1 =>
        if 1000 ≤ usub32 e.now s.waitStart then
          ({ s with st := M2St.MoveDown1 }, { moveCmds := [(pp.plungeAfterSurface_mm, 1)] })
        else (s, {})
    | M2St.MoveDown1 =>
        if e.busy then (s, {}) else ({ s with waitStart := e.now, st := M2St.Wait2 }, {})
    | M2St.Wait2 =>
        if 1000 ≤ usub32 e.now s.waitStart then
          ({ s with relay1 := true, relay2 := false, validateStart := e.now,
                    iavg := MovingAverage.reset 200 1000 0,
                    iavgS := MovingAverage.reset 20 1000 0,
                    st := M2St.Validate30V }, {})
        else (s, {})
    | M2St.Validate30V =>
        let p := MovingAverage.update 20 1000 s.iavgS e.irms
        let s := { s with iavgS := p.1 }
        if (1 : ℚ)/2 ≤ p.2 then
          ({ s with etchStart := e.now, st := M2St.RelayHold }, {})
        else if 500 ≤ usub32 e.now s.validateStart then
          ({ s with relay1 := true, relay2 := true, speedCmd := 3,
                    st := M2St.MovingDownDetect }, {})
        else (s, {})
    | M2St.RelayHold =>
        let p := MovingAverage.update 200 1000 s.iavg e.irms
        let s := { s with iavg := p.1 }
        if usub32 e.now s.etchStart < 2000 then (s, {})
        else if cppLe p.2 p.2 ≤ pp.etchingThreshold_A then
          ({ s with relay1 := true, relay2 := true, waitStart := e.now,
                    st := M2St.Wait3 }, {})
        else (s, {})
    | M2St.Wait3 =>
        if 1000 ≤ usub32 e.now s.waitStart then
          ({ s with st := M2St.MoveDown2 }, { moveCmds := [(pp.plungeAfterEtch_mm, 1)] })
        else (s, {})
    | M2St.MoveDown2 =>
        if e.busy then (s, {}) else ({ s with waitStart := e.now, st := M2St.Wait4 }, {})
    | M2St.Wait4 =>
        if 1000 ≤ usub32 e.now s.waitStart then
          ({ s with senseEnabled := false, pulseStart := e.now, relayOn := true,
                    pulseCount := 0, relay1 := false, relay2 := true,
                    st := M2St.RelayPulse },
           { on9V := true })
        else (s, {})
    | M2St.RelayPulse =>
        if s.relayOn then
          if pp.pulseOn_s ≤ (usub32 e.now s.pulseStart : ℚ) then
            ({ s with relay1 := true, relay2 := true, relayOn := false,
                      pulseStart := e.now }, {})
          else (s, {})
        else
          if pp.pulseOff_s ≤ (usub32 e.now s.pulseStart : ℚ) then
            let c := (s.pulseCount + 1) % 256
            if pp.pulseCount ≤ (c : ℤ) then
              ({ s with pulseCount := c, st := M2St.FinalLift },
               { moveCmds := [(-30, 3)] })
            else
              ({ s with pulseCount := c, relay1 := false, relay2 := true,
                        relayOn := true, pulseStart := e.now }, { on9V := true })
          else (s, {})
    | M2St.FinalLift =>
        if e.busy then (s, {})
        else ({ s with relay1 := true, relay2 := true, st := M2St.Done }, { ret := true })
    | M2St.Done => (s, { ret := true })

/-- State of a `HomeMode` object (plus the outputs it drives). -/
structure HomeS where
  homed : Bool
  target : ℚ
  baselineMeasuring : Bool
  baselineDone : Bool
  baselineStart : ℕ
  baselineSum : ℚ
  baselineCount : ℕ
  speedCmd : ℚ
  senseEnabled : Bool

/-- The state `HomeMode::begin()` establishes (downward seek at 5 mm/s; all
baseline bookkeeping cleared; `target_` keeps its field initialiser 0). -/
def homeInit : HomeS :=
  { homed := false, target := 0, baselineMeasuring := false, baselineDone := false,
    baselineStart := 0, baselineSum := 0, baselineCount := 0,
    speedCmd := -5, senseEnabled := false }

/-- `HomeMode::step()`.  Phase 1 seeks the limit switch; when it trips, the
code stops, zeroes the position, executes a blocking `delay(200)`, and starts
the move to Z = 30 mm.  Phase 2 waits for arrival and starts the 5 s baseline
accumulation.  Phase 3 accumulates `lastIrms` each tick and, after 5 s,
publishes the mean to the global baseline.  Phase 4 executes a blocking
`delay(2000)` and reports completion. -/
def homeStep (e : Env) (s : HomeS) : HomeS × StepOut :=
  if ¬ s.homed then
    if e.limitLow then
      ({ s with speedCmd := 5, homed := true, target := 30 },
       { delayMs := 200, setPosCmd := some 0 })
    else (s, {})
  else if ¬ s.baselineMeasuring ∧ ¬ s.baselineDone then
    if s.target ≤ e.z then
      ({ s with speedCmd := 0, senseEnabled := true, baselineMeasuring := true,
                baselineStart := e.now, baselineSum := 0, baselineCount := 0 }, {})
    else (s, {})
  else if s.baselineMeasuring then
    let sum := s.baselineSum + e.iraw
    let cnt := s.baselineCount + 1
    if 5000 ≤ usub32 e.now s.baselineStart then
      ({ s with baselineSum := sum, baselineCount := cnt, senseEnabled := false,
                baselineMeasuring := false, baselineDone := true },
       { baselineWrite := some (if 0 < cnt then sum / (cnt : ℚ) else 0) })
    else ({ s with baselineSum := sum, baselineCount := cnt }, {})
  else if s.baselineDone then (s, { ret := true, delayMs := 2000 })
  else (s, {})

/-- Event counts accumulated over a run of `Mod2Mode::step` calls: number of
ticks that wrote the 9 V ON combination, total `moveRelativeMm` commands, and
how many of those were the final `(-30 mm, 3 mm/s)` lift. -/
structure M2Stats where
  ons : ℕ
  moves : ℕ
  lifts : ℕ
deriving DecidableEq

/-- Fold one step's outputs into the counters. -/
def statsAdd (t : M2Stats) (o : StepOut) : M2Stats :=
  { ons := t.ons + (if o.on9V then 1 else 0)
    moves := t.moves + o.moveCmds.length
    lifts := t.lifts + o.moveCmds.count ((-30 : ℚ), (3 : ℚ)) }

/-- Drive `mod2Step` over a list of tick environments, threading the state and
accumulating the counters. -/
def mod2RunAux (pp : Mod2P) (thr : ℚ) (p : Mod2S × M2Stats) (es : List Env) :
    Mod2S × M2Stats :=
  es.foldl (fun p e =>
    ((mod2Step pp thr e p.1).1, statsAdd p.2 (mod2Step pp thr e p.1).2)) p

/-- Run from a state with zeroed counters. -/
def mod2Run (pp : Mod2P) (thr : ℚ) (s : Mod2S) (es : List Env) : Mod2S × M2Stats :=
  mod2RunAux pp thr (s, ⟨0, 0, 0⟩) es

/-- A tick environment whose position is strictly inside the soft travel
range, so the abort branch does not fire. -/
def safeZ (e : Env) : Prop := 3/2 < e.z ∧ e.z < 75

/-- Well-formedness of a MOD2 state in the pulse-train region: either still in
`Wait4`, or pulsing with the counter strictly below the configured count and
the relay outputs coupled to `relayOn_`, or in `FinalLift`/`Done` with both
relays HIGH (voltage off). -/
def pulseWF (P : ℤ) (s : Mod2S) : Prop :=
  s.st = M2St.Wait4 ∨
  (s.st = M2St.RelayPulse ∧ (s.pulseCount : ℤ) < P ∧
    s.relay2 = true ∧ s.relay1 = !s.relayOn) ∨
  (s.st = M2St.FinalLift ∧ s.relay1 = true ∧ s.relay2 = true) ∨
  (s.st = M2St.Done ∧ s.relay1 = true ∧ s.relay2 = true)

/-- Number of 9 V ON events that have occurred since `Wait4` for a state in
the pulse-train region. -/
def gPot (P : ℤ) (s : Mod2S) : ℕ :=
  match s.st with
  | M2St.RelayPulse => s.pulseCount + 1
  | M2St.FinalLift => P.toNat
  | M2St.Done => P.toNat
  | _ => 0

/-- Number of `moveRelativeMm` commands issued since `Wait4` for a state in
the pulse-train region (the single final lift). -/
def lPot (s : Mod2S) : ℕ :=
  match s.st with
  | M2St.FinalLift => 1
  | M2St.Done => 1
  | _ => 0

end Modes

namespace Modes

/-- MOD2 parameter set with pulse count 256 (configurable: the on-device
editor admits integers in [0, 999]); unit pulse durations. -/
def pulseParams256 : Mod2P := ⟨4, 1/20, 3, 256, 1, 1⟩

/-- MOD2 parameter set with pulse count 2 and unit pulse durations. -/
def pulseParams2 : Mod2P := ⟨4, 1/20, 3, 2, 1, 1⟩

/-- The default MOD2 parameters from Parameters.cpp: plunge 4 mm, etching
threshold 0.05 A, post-etch plunge 3 mm, 5 pulses of 0.5 s on / 2 s off. -/
def mod2Defaults : Mod2P := ⟨4, 1/20, 3, 5, 1/2, 2⟩

/-- A MOD2 state in `Wait4` (the pause just before the pulse train), relays
off, stepper holding position at a safe height. -/
def wait4State : Mod2S :=
  { st := M2St.Wait4, relay1 := true, relay2 := true, speedCmd := 0, senseEnabled := true,
    iavg := MovingAverage.reset 200 1000 0, iavgS := MovingAverage.reset 20 1000 0,
    waitStart := 0, validateStart := 0, etchStart := 0,
    pulseStart := 0, relayOn := false, pulseCount := 0 }

/-- 513 ticks, 1 ms apart, holding a safe position: enough for the pulse
train to switch the 9 V supply on 257 times when the pulse count is 256. -/
def wrapEnvs : List Env := (List.range 513).map fun k => ⟨1000 + k, 30, 0, 0, false, false⟩

/-- 6 ticks, 1 ms apart: a complete pulse train for pulse count 2 with unit
durations, ending with the final lift already finished (stepper not busy). -/
def pulse2Envs : List Env := (List.range 6).map fun k => ⟨1000 + k, 30, 0, 0, false, false⟩

/-- A MOD2 state in `RelayHold` with the 30 V supply on (relay2 LOW) and the
long-window average primed so that the next update returns 0.01 A. -/
def holdState : Mod2S :=
  { st := M2St.RelayHold, relay1 := true, relay2 := false, speedCmd := 0, senseEnabled := true,
    iavg := MovingAverage.reset 200 1000 (1/100), iavgS := MovingAverage.reset 20 1000 0,
    waitStart := 0, validateStart := 0, etchStart := 0,
    pulseStart := 0, relayOn := false, pulseCount := 0 }

/-- A tick 3 s into the hold (the 2 s pre-etch period has elapsed) with
corrected current 0.01 A, safely inside the travel range. -/
def holdEnv : Env := ⟨3000, 30, 1/100, 0, false, false⟩

/-- A tick whose position (1 mm) is below the soft minimum. -/
def abortEnv : Env := ⟨0, 1, 0, 0, false, false⟩

/-- An arbitrary concrete MOD1 state (mid-etch). -/
def mod1Sample : Mod1S :=
  { st := M1St.Etching, relay1 := true, relay2 := false, speedCmd := -3/200,
    senseEnabled := true,
    iavg := MovingAverage.reset 200 1000 0, iavgS := MovingAverage.reset 20 1000 0,
    waitStart := 0, validateStart := 0, etchStart := 0, stopTime := 0, bumpedUp1mm := false }

/-- The MOD1 default parameters from Parameters.cpp. -/
def mod1Defaults : Mod1P := ⟨4, 1/20, 3/200⟩

end Modes

namespace MovingAverage

theorem toFixed_zero (S : ℚ) : toFixed S 0 = 0 := by
  unfold toFixed lroundQ
  norm_num

theorem run_append (N : ℕ) (S : ℚ) (l : List ℚ) (x : ℚ) :
    run N S (l ++ [x]) = update N S (run N S l).1 x := by
  simp [run, List.foldl_append]

theorem fixList_append (S : ℚ) (l : List ℚ) (x : ℚ) :
    fixList S (l ++ [x]) = fixList S l ++ [toFixed S x] := by
  simp [fixList]

theorem fixList_length (S : ℚ) (l : List ℚ) : (fixList S l).length = l.length := by
  simp [fixList]

/-- Coupling invariant between the circular-buffer state produced by the code
and the sample history: index, filled flag, every live buffer slot, and the
running sum (which equals the sum of the live window). -/
theorem run_inv (N : ℕ) (S : ℚ) (hN : 0 < N) (xs : List ℚ) :
    (run N S xs).1.idx = xs.length % N ∧
    (run N S xs).1.filled = decide (N ≤ xs.length) ∧
    (∀ i, i < N → (run N S xs).1.buf i = slotSpec N xs.length (fixList S xs) i) ∧
    (run N S xs).1.sum = winSum N (fixList S xs) := by
  induction xs using List.reverseRecOn with
  | nil =>
      refine ⟨by simp [run, reset], ?_, ?_, ?_⟩
      · simp [run, reset, toFixed_zero, Nat.not_le.mpr hN]
      · intro i hi
        simp [run, reset, toFixed_zero, slotSpec, Nat.not_le.mpr hN, fixList]
      · simp [run, reset, toFixed_zero, winSum, lastWindow, fixList]
  | append_singleton l x ih =>
      obtain ⟨h1, h2, h3, h4⟩ := ih
      rw [run_append]
      set st := (run N S l).1 with hst
      set L := l.length with hLdef
      set fs := fixList S l with hfsdef
      set xf := toFixed S x with hxfdef
      have hlenfs : fs.length = L := fixList_length S l
      have hm : L % N < N := Nat.mod_lt _ hN
      have hmle : L % N ≤ L := Nat.mod_le _ _
      have hdm : N * (L / N) + L % N = L := Nat.div_add_mod L N
      have hNA : N ≤ L → N ≤ N * (L / N) := by
        intro h
        calc N = N * 1 := by ring
        _ ≤ N * (L / N) := Nat.mul_le_mul_left N ((Nat.one_le_div_iff hN).mpr h)
      have hLsmall : L < N → L % N = L := fun h => Nat.mod_eq_of_lt h
      have hlen2 : (l ++ [x]).length = L + 1 := by simp [hLdef]
      have hfs2 : fixList S (l ++ [x]) = fs ++ [xf] := fixList_append S l x
      have hmod : (L + 1) % N = (L % N + 1) % N := (Nat.mod_add_mod L N 1).symm
      have hiffNL : N ≤ L % N + 1 ∨ (N ≤ L ↔ N ≤ L + 1) := by
        by_cases hw : N ≤ L % N + 1
        · exact Or.inl hw
        · refine Or.inr ⟨fun h => le_trans h (Nat.le_succ L), fun h => ?_⟩
          rcases Nat.lt_or_ge L N with hLN | hLN
          · have := hLsmall hLN
            omega
          · exact hLN
      rw [hlen2, hfs2]
      simp only [update]
      refine ⟨?_, ?_, ?_, ?_⟩
      · -- index advances modulo N
        simp only [h1]
        by_cases hw : N ≤ L % N + 1
        · have hwN : L % N + 1 = N := le_antisymm (Nat.succ_le_of_lt hm) hw
          rw [if_pos hw, hmod, hwN, Nat.mod_self]
        · have hnw : L % N + 1 < N := Nat.not_le.mp hw
          rw [if_neg hw, hmod, Nat.mod_eq_of_lt hnw]
      · -- filled flag
        simp only [h1, h2]
        by_cases hw : N ≤ L % N + 1
        · have hwN : L % N + 1 = N := le_antisymm (Nat.succ_le_of_lt hm) hw
          rw [if_pos hw]
          have : N ≤ L + 1 := by omega
          simp [this]
        · rw [if_neg hw]
          rcases hiffNL with h | h
          · exact absurd h hw
          · simp only [decide_eq_decide]
            exact h
      · -- buffer slots
        intro i hi
        simp only [h1, Function.update_apply]
        rw [← hxfdef]
        by_cases hieq : i = L % N
        · rw [if_pos hieq]
          subst hieq
          unfold slotSpec
          by_cases hw : N ≤ L % N + 1
          · have hwN : L % N + 1 = N := le_antisymm (Nat.succ_le_of_lt hm) hw
            have hmod0 : (L + 1) % N = 0 := by rw [hmod, hwN, Nat.mod_self]
            rw [hmod0, if_neg (Nat.not_lt.mpr (Nat.zero_le _)),
               if_pos (show N ≤ L + 1 by omega)]
            have hidx : L + 1 - 0 + L % N - N = L := by omega
            rw [hidx, List.getD_append_right _ _ _ _ ((by omega : fs.length ≤ L))]
            simp [hlenfs]
          · have hnw : L % N + 1 < N := Nat.not_le.mp hw
            have hmod1 : (L + 1) % N = L % N + 1 := by rw [hmod, Nat.mod_eq_of_lt hnw]
            rw [hmod1, if_pos (Nat.lt_succ_self _)]
            have hidx : L + 1 - (L % N + 1) + L % N = L := by omega
            rw [hidx, List.getD_append_right _ _ _ _ ((by omega : fs.length ≤ L))]
            simp [hlenfs]
        · rw [if_neg hieq, h3 i hi]
          unfold slotSpec
          by_cases hw : N ≤ L % N + 1
          · have hwN : L % N + 1 = N := le_antisymm (Nat.succ_le_of_lt hm) hw
            have hmod0 : (L + 1) % N = 0 := by rw [hmod, hwN, Nat.mod_self]
            rw [hmod0, if_neg (Nat.not_lt.mpr (Nat.zero_le _)),
               if_pos (show N ≤ L + 1 by omega)]
            have hiLm : i < L % N := by omega
            rw [if_pos hiLm]
            have hidx : L + 1 - 0 + i - N = L - L % N + i := by omega
            rw [hidx, List.getD_append _ _ _ _ (by omega : L - L % N + i < fs.length)]
          · have hnw : L % N + 1 < N := Nat.not_le.mp hw
            have hmod1 : (L + 1) % N = L % N + 1 := by rw [hmod, Nat.mod_eq_of_lt hnw]
            rw [hmod1]
            by_cases hil : i < L % N
            · rw [if_pos hil, if_pos (by omega : i < L % N + 1)]
              have hidx : L + 1 - (L % N + 1) + i = L - L % N + i := by omega
              rw [hidx, List.getD_append _ _ _ _ (by omega : L - L % N + i < fs.length)]
            · rw [if_neg hil, if_neg (by omega : ¬ i < L % N + 1)]
              rcases hiffNL with hcontra | hiff
              · exact absurd hcontra hw
              · by_cases hNL : N ≤ L
                · rw [if_pos hNL, if_pos (hiff.mp hNL)]
                  have hA := hNA hNL
                  have hidx : L + 1 - (L % N + 1) + i - N = L - L % N + i - N := by omega
                  rw [hidx, List.getD_append _ _ _ _
                    (by omega : L - L % N + i - N < fs.length)]
                · rw [if_neg hNL, if_neg (fun h => hNL (hiff.mpr h))]
      · -- running sum equals the window sum
        simp only [h1, h4, h3 (L % N) hm]
        rw [← hxfdef]
        have hev : slotSpec N L fs (L % N) = if N ≤ L then fs.getD (L - N) 0 else 0 := by
          unfold slotSpec
          rw [if_neg (lt_irrefl _)]
          have hidx : L - L % N + L % N - N = L - N := by omega
          rw [hidx]
        rw [hev]
        unfold winSum lastWindow
        have hlen3 : (fs ++ [xf]).length = L + 1 := by simp [hlenfs]
        rw [hlenfs, hlen3]
        by_cases hNL : N ≤ L
        · rw [if_pos hNL, min_eq_left hNL, min_eq_left (le_trans hNL (Nat.le_succ _))]
          rw [List.drop_append_of_le_length (by omega : L + 1 - N ≤ fs.length)]
          rw [List.sum_append]
          have hbound : L - N < fs.length := by omega
          have hdropSum : (fs.drop (L - N)).sum =
              fs.getD (L - N) 0 + (fs.drop (L + 1 - N)).sum := by
            rw [List.getD_eq_getElem _ _ hbound, List.drop_eq_getElem_cons hbound,
               List.sum_cons]
            have : L - N + 1 = L + 1 - N := by omega
            rw [this]
          rw [hdropSum]
          simp
        · rw [if_neg hNL]
          have hLN : L < N := Nat.not_le.mp hNL
          rw [min_eq_right (le_of_lt hLN), min_eq_right (Nat.succ_le_of_lt hLN)]
          simp [List.sum_append]

end MovingAverage

namespace MovingAverage

/-- The value returned by `update` expressed through the fields of the state
`update` leaves behind (the source computes the denominator from the updated
`filled_` and `idx_`). -/
theorem update_val (N : ℕ) (S : ℚ) (s : MAState) (xA : ℚ) :
    (update N S s xA).2 =
      (((update N S s xA).1.sum : ℚ) /
        (((if (if (update N S s xA).1.filled = true then (N : ℤ)
               else ((update N S s xA).1.idx : ℤ)) ≤ 0
           then (1 : ℤ)
           else if (update N S s xA).1.filled = true then (N : ℤ)
                else ((update N S s xA).1.idx : ℤ)) : ℤ) : ℚ)) / S := rfl

/-- The value returned by the k-th `update` call after `reset(0)` equals the
sum of the last `min N k` fixed-point samples divided by `min N k` and by the
scale - exactly, in exact rational arithmetic. -/
theorem run_value (N : ℕ) (S : ℚ) (hN : 0 < N) (l : List ℚ) (x : ℚ) :
    (run N S (l ++ [x])).2 =
      ((winSum N (fixList S (l ++ [x])) : ℚ) / ((min N (l.length + 1) : ℕ) : ℚ)) / S := by
  obtain ⟨hidx, hfill, hbuf, hsum⟩ := run_inv N S hN (l ++ [x])
  rw [run_append] at hidx hfill hsum
  rw [run_append, update_val, hidx, hfill, hsum]
  simp only [List.length_append, List.length_singleton]
  have hD : (if (if decide (N ≤ l.length + 1) = true then (N : ℤ)
                 else (((l.length + 1) % N : ℕ) : ℤ)) ≤ 0
             then (1 : ℤ)
             else if decide (N ≤ l.length + 1) = true then (N : ℤ)
                  else (((l.length + 1) % N : ℕ) : ℤ)) =
      ((min N (l.length + 1) : ℕ) : ℤ) := by
    by_cases hNL : N ≤ l.length + 1
    · have h0 : ¬ ((N : ℤ) ≤ 0) := by omega
      simp [hNL, h0, Nat.min_eq_left hNL]
    · have hlt : l.length + 1 < N := Nat.not_le.mp hNL
      have hmodeq : (l.length + 1) % N = l.length + 1 := Nat.mod_eq_of_lt hlt
      have h0 : ¬ (((l.length + 1 : ℕ) : ℤ) ≤ 0) := by omega
      simp [hNL, hmodeq, h0, Nat.min_eq_right (le_of_lt hlt)]
  rw [hD]
  norm_cast

end MovingAverage

/-- C5: starting from `reset(0)`, the value returned by the k-th call to
`MovingAverage::update` equals the arithmetic mean of the fixed-point
representations (input times SCALE, rounded to nearest, clamped to the int16
range) of the last `min(N, k)` inserted samples, divided by SCALE, within one
scale unit (1/SCALE) of rounding error (in the exact-rational model the
equality is in fact exact). -/
theorem moving_average_window_mean (N : ℕ) (S : ℚ) (xs : List ℚ)
    (hN : 0 < N) (hS : 0 < S) (hxs : xs ≠ []) :
    |(MovingAverage.run N S xs).2 -
      ((MovingAverage.winSum N (MovingAverage.fixList S xs) : ℚ) /
        ((min N xs.length : ℕ) : ℚ)) / S| ≤ 1 / S := by
  induction xs using List.reverseRecOn with
  | nil => exact absurd rfl hxs
  | append_singleton l x _ =>
      rw [MovingAverage.run_value N S hN l x]
      simp only [List.length_append, List.length_singleton, sub_self, abs_zero]
      positivity

/-- Witness for C5 at N = 20, SCALE = 1000, samples [1, 2]. -/
theorem moving_average_window_mean_witness :
    (0 < 20) ∧ (0 < (1000 : ℚ)) ∧ ([(1 : ℚ), 2] ≠ []) ∧
    |(MovingAverage.run 20 1000 [(1 : ℚ), 2]).2 -
      ((MovingAverage.winSum 20 (MovingAverage.fixList 1000 [(1 : ℚ), 2]) : ℚ) /
        ((min 20 ([(1 : ℚ), 2]).length : ℕ) : ℚ)) / 1000| ≤ 1 / 1000 :=
  ⟨by decide, by norm_num, by simp,
    moving_average_window_mean 20 1000 [(1 : ℚ), 2] (by decide) (by norm_num) (by simp)⟩

/-- C7 counterexample: `reset(0.0001)` on the 20-sample SCALE-1000 window
leaves `filled()` false although the argument is nonzero, because the
fixed-point image of 0.0001 rounds to 0. -/
theorem reset_tiny_nonzero_not_filled :
    (MovingAverage.reset 20 1000 (1/10000)).filled = false ∧ ((1 : ℚ)/10000 ≠ 0) := by
  with_unfolding_all decide

/-- C7 (amended): `filled()` is true immediately after `reset(x)` if and only
if the fixed-point representation of `x` is nonzero (so it stays false for
any `x` whose scaled rounding is 0, e.g. |x| ≤ 1/(2·SCALE)); after `reset(0)`
the flag is false and becomes true exactly once N updates have occurred. -/
theorem filled_after_reset_and_warmup (N : ℕ) (S : ℚ) (hN : 0 < N) :
    (∀ x : ℚ, (MovingAverage.reset N S x).filled =
      decide (MovingAverage.toFixed S x ≠ 0)) ∧
    (∀ xs : List ℚ, (MovingAverage.run N S xs).1.filled = decide (N ≤ xs.length)) :=
  ⟨fun _ => rfl, fun xs => (MovingAverage.run_inv N S hN xs).2.1⟩

/-- Witness for the amended C7 at N = 20, SCALE = 1000: `reset(2)` fills the
window immediately, while 19 updates after `reset(0)` do not fill it and a
20th does. -/
theorem filled_after_reset_and_warmup_witness :
    (0 < 20) ∧
    (MovingAverage.reset 20 1000 2).filled = decide (MovingAverage.toFixed 1000 2 ≠ 0) ∧
    (MovingAverage.run 20 1000 (List.replicate 19 1)).1.filled = decide (20 ≤ 19) ∧
    (MovingAverage.run 20 1000 (List.replicate 20 1)).1.filled = decide (20 ≤ 20) :=
  ⟨by decide,
    (filled_after_reset_and_warmup 20 1000 (by decide)).1 2,
    by simpa using (filled_after_reset_and_warmup 20 1000 (by decide)).2 (List.replicate 19 1),
    by simpa using (filled_after_reset_and_warmup 20 1000 (by decide)).2 (List.replicate 20 1)⟩

/-- C8: if a CurrentSensor integration window closes with zero accumulated
samples (and no sample is taken on this tick), `update()` leaves the last
computed RMS current unchanged: the zero-sample division is never performed
and the reading is not zeroed out.  This holds for the abstract `sqrtf` and
any configuration. -/
theorem zero_sample_window_keeps_irms (sqrtF : ℚ → ℚ) (cfg : CurrentSensor.Config)
    (now : ℕ) (adc : ℤ) (s : CurrentSensor.State)
    (hen : s.enabled = true)
    (hnodue : i32nonneg (usub32 now s.nextSampleTime) = false)
    (hzero : s.nSamples = 0)
    (hwin : toInt32 cfg.sampleWindow_us ≤ toInt32 (usub32 now s.windowStart)) :
    (CurrentSensor.update sqrtF cfg now adc s).Irms = s.Irms := by
  simp only [CurrentSensor.update, hen, hnodue, if_pos hwin, hzero,
    lt_irrefl, if_false, if_true, Bool.false_eq_true, ite_false, ite_true]

/-- Witness for C8: disabled sampling tick at 25 ms with an elapsed 20 ms
window, zero samples, previous reading 7/2 A. -/
theorem zero_sample_window_keeps_irms_witness :
    ((⟨true, 30000, 0, 1023, 0, 0, 7/2, 0, 0, 0⟩ : CurrentSensor.State).enabled = true) ∧
    (i32nonneg (usub32 25000 30000) = false) ∧
    ((⟨true, 30000, 0, 1023, 0, 0, 7/2, 0, 0, 0⟩ : CurrentSensor.State).nSamples = 0) ∧
    (toInt32 20000 ≤ toInt32 (usub32 25000 0)) ∧
    (CurrentSensor.update id ⟨5, 1023, 9/10, 20000, 200⟩ 25000 750
      ⟨true, 30000, 0, 1023, 0, 0, 7/2, 0, 0, 0⟩).Irms =
      (⟨true, 30000, 0, 1023, 0, 0, 7/2, 0, 0, 0⟩ : CurrentSensor.State).Irms :=
  ⟨rfl, by decide, rfl, by decide,
    zero_sample_window_keeps_irms id ⟨5, 1023, 9/10, 20000, 200⟩ 25000 750
      ⟨true, 30000, 0, 1023, 0, 0, 7/2, 0, 0, 0⟩ rfl (by decide) rfl (by decide)⟩

/-- C4 counterexample: with steps-per-mm 100, speed 1 mm/s (period 10000 us),
a pending deadline of 900 and a pulse due at `now = 1000`, the new deadline
written by `StepperDriver::update` is `now + period = 11000`, not the
accumulated `previous deadline + period = 10900`. -/
theorem stepper_deadline_not_accumulated :
    (StepperDriver.update ⟨100, 5⟩ 1000
        ⟨0, 1, true, 900, StepperDriver.Motion.Velocity, 0⟩).tNextStep = 11000 ∧
    ¬ ((StepperDriver.update ⟨100, 5⟩ 1000
        ⟨0, 1, true, 900, StepperDriver.Motion.Velocity, 0⟩).tNextStep =
      900 + StepperDriver.stepPeriodUs ⟨100, 5⟩
        ⟨0, 1, true, 900, StepperDriver.Motion.Velocity, 0⟩) := by
  with_unfolding_all decide

/-- C4 (amended): whenever a step pulse becomes due in `StepperDriver::update`
(driver not idle, speed at least one step per second, deadline reached), the
next deadline is recomputed as the current time plus one step period
(`tNextStep := now + period`), not advanced from the previous deadline, so
call-timing jitter does enter the pulse schedule. -/
theorem stepper_deadline_from_now (cfg : StepperDriver.Config) (now : ℕ)
    (s : StepperDriver.State)
    (hmove : ¬ (s.motion = StepperDriver.Motion.Idle ∧ s.speed_mm_s = 0))
    (hfast : ¬ (|s.speed_mm_s| * cfg.stepsPerMm < 1))
    (hdue : i32nonneg (usub32 now (if s.tNextStep = 0 then u32 now else s.tNextStep)) = true) :
    (StepperDriver.update cfg now s).tNextStep = u32 (now + StepperDriver.stepPeriodUs cfg s) := by
  simp only [StepperDriver.update, if_neg hmove, if_neg hfast, hdue, if_true,
    StepperDriver.stepOnce]
  repeat' split
  all_goals rfl

/-- Witness for the amended C4 at the counterexample input. -/
theorem stepper_deadline_from_now_witness :
    (¬ ((⟨0, 1, true, 900, StepperDriver.Motion.Velocity, 0⟩ : StepperDriver.State).motion =
          StepperDriver.Motion.Idle ∧
        (⟨0, 1, true, 900, StepperDriver.Motion.Velocity, 0⟩ : StepperDriver.State).speed_mm_s = 0)) ∧
    (¬ (|(⟨0, 1, true, 900, StepperDriver.Motion.Velocity, 0⟩ : StepperDriver.State).speed_mm_s| *
          (⟨100, 5⟩ : StepperDriver.Config).stepsPerMm < 1)) ∧
    (StepperDriver.update ⟨100, 5⟩ 1000
        ⟨0, 1, true, 900, StepperDriver.Motion.Velocity, 0⟩).tNextStep =
      u32 (1000 + StepperDriver.stepPeriodUs ⟨100, 5⟩
        ⟨0, 1, true, 900, StepperDriver.Motion.Velocity, 0⟩) :=
  ⟨by with_unfolding_all decide, by with_unfolding_all decide,
    stepper_deadline_from_now ⟨100, 5⟩ 1000 ⟨0, 1, true, 900, StepperDriver.Motion.Velocity, 0⟩
      (by with_unfolding_all decide) (by with_unfolding_all decide)
      (by with_unfolding_all decide)⟩

/-- C9: evaluation of `StepperDriver::moveToMm` at a negative requested speed.
With default speed 5 mm/s, the call `moveToMm(10, -3)` commands magnitude 3
(the magnitude of the request), not the default 5: the source takes `fabsf`
before testing `v <= 0`, so the documented "non-positive request falls back
to the default speed" applies only to a zero request. -/
theorem moveToMm_negative_speed_magnitude :
    ((-3 : ℚ) ≤ 0) ∧
    |(StepperDriver.moveToMm ⟨100, 5⟩ 10 (-3)
        ⟨0, 0, true, 0, StepperDriver.Motion.Idle, 0⟩).speed_mm_s| = 3 ∧
    ((3 : ℚ) ≠ (⟨100, 5⟩ : StepperDriver.Config).default_mm_s) := by
  with_unfolding_all decide

/-- C10: `isBusy()` is true exactly in target mode; starting continuous
velocity motion with a nonzero speed reports not-busy (even though pulses are
emitted); and a target move that self-terminates inside `update()` reports
not-busy in that same call. -/
theorem isBusy_iff_target :
    (∀ s : StepperDriver.State,
      StepperDriver.isBusy s = true ↔ s.motion = StepperDriver.Motion.ToTarget) ∧
    (∀ (cfg : StepperDriver.Config) (v : ℚ) (s : StepperDriver.State),
      v ≠ 0 → 0 < cfg.default_mm_s →
      StepperDriver.isBusy (StepperDriver.setSpeedMmPerSec cfg v s) = false) ∧
    (∀ (cfg : StepperDriver.Config) (now : ℕ) (s : StepperDriver.State),
      s.motion = StepperDriver.Motion.ToTarget →
      ¬ (|s.speed_mm_s| * cfg.stepsPerMm < 1) →
      i32nonneg (usub32 now (if s.tNextStep = 0 then u32 now else s.tNextStep)) = true →
      (if s.dir = true then s.target_steps ≤ s.pos_steps + 1
       else s.pos_steps - 1 ≤ s.target_steps) →
      StepperDriver.isBusy (StepperDriver.update cfg now s) = false) := by
  refine ⟨fun s => by simp [StepperDriver.isBusy], ?_, ?_⟩
  · intro cfg v s hv hd
    simp only [StepperDriver.setSpeedMmPerSec, StepperDriver.isBusy]
    split_ifs with h1 h2 h3 h4 h5 <;> simp_all
  · intro cfg now s hmot hfast hdue hreach
    cases hsd : s.dir with
    | true =>
        rw [hsd] at hreach
        simp at hreach
        simp [StepperDriver.update, StepperDriver.stepOnce, StepperDriver.isBusy,
          hmot, hdue, hfast, hsd, hreach]
    | false =>
        rw [hsd] at hreach
        simp at hreach
        have hreach2 : s.pos_steps + -1 ≤ s.target_steps := by omega
        simp [StepperDriver.update, StepperDriver.stepOnce, StepperDriver.isBusy,
          hmot, hdue, hfast, hsd, hreach2]

/-- Witness for C10: the three parts at concrete inputs - a target-mode
state is busy; starting velocity 1 mm/s from idle is not busy; a target move
one step from its target self-terminates and is not busy in the same call. -/
theorem isBusy_iff_target_witness :
    (StepperDriver.isBusy ⟨0, 1, true, 0, StepperDriver.Motion.ToTarget, 5⟩ = true ↔
      (⟨0, 1, true, 0, StepperDriver.Motion.ToTarget, 5⟩ : StepperDriver.State).motion =
        StepperDriver.Motion.ToTarget) ∧
    (StepperDriver.isBusy (StepperDriver.setSpeedMmPerSec ⟨100, 5⟩ 1
      ⟨0, 0, true, 0, StepperDriver.Motion.Idle, 0⟩) = false) ∧
    (StepperDriver.isBusy (StepperDriver.update ⟨100, 5⟩ 0
      ⟨999, 1, true, 0, StepperDriver.Motion.ToTarget, 1000⟩) = false) :=
  ⟨isBusy_iff_target.1 ⟨0, 1, true, 0, StepperDriver.Motion.ToTarget, 5⟩,
    isBusy_iff_target.2.1 ⟨100, 5⟩ 1 ⟨0, 0, true, 0, StepperDriver.Motion.Idle, 0⟩
      (by norm_num) (by norm_num),
    isBusy_iff_target.2.2 ⟨100, 5⟩ 0 ⟨999, 1, true, 0, StepperDriver.Motion.ToTarget, 1000⟩
      rfl (by with_unfolding_all decide) (by with_unfolding_all decide)
      (by with_unfolding_all decide)⟩

/-- C2: in every state of either etching machine, a tick whose position is at
or below 1.5 mm or at or beyond 75 mm immediately zeroes the commanded speed,
disables current sensing, drives both relays HIGH (voltage off), enters the
terminal Done state and returns true - regardless of the machine state, so
before any other transition can fire. -/
theorem soft_limit_abort_immediate (pp1 : Modes.Mod1P) (pp2 : Modes.Mod2P)
    (thr1 thr2 : ℚ) (e : Modes.Env) (s1 : Modes.Mod1S) (s2 : Modes.Mod2S)
    (h : e.z ≤ 3/2 ∨ 75 ≤ e.z) :
    ((Modes.mod1Step pp1 thr1 e s1).1.speedCmd = 0 ∧
     (Modes.mod1Step pp1 thr1 e s1).1.senseEnabled = false ∧
     (Modes.mod1Step pp1 thr1 e s1).1.relay1 = true ∧
     (Modes.mod1Step pp1 thr1 e s1).1.relay2 = true ∧
     (Modes.mod1Step pp1 thr1 e s1).1.st = Modes.M1St.Done ∧
     (Modes.mod1Step pp1 thr1 e s1).2.ret = true) ∧
    ((Modes.mod2Step pp2 thr2 e s2).1.speedCmd = 0 ∧
     (Modes.mod2Step pp2 thr2 e s2).1.senseEnabled = false ∧
     (Modes.mod2Step pp2 thr2 e s2).1.relay1 = true ∧
     (Modes.mod2Step pp2 thr2 e s2).1.relay2 = true ∧
     (Modes.mod2Step pp2 thr2 e s2).1.st = Modes.M2St.Done ∧
     (Modes.mod2Step pp2 thr2 e s2).2.ret = true) := by
  refine ⟨?_, ?_⟩
  · simp only [Modes.mod1Step, if_pos h]
    simp
  · simp only [Modes.mod2Step, if_pos h]
    simp

/-- Witness for C2 at position 1 mm (below the soft minimum) in mid-run
states of both machines. -/
theorem soft_limit_abort_immediate_witness :
    (Modes.abortEnv.z ≤ 3/2 ∨ 75 ≤ Modes.abortEnv.z) ∧
    (Modes.mod1Step Modes.mod1Defaults (1/2) Modes.abortEnv Modes.mod1Sample).1.st =
      Modes.M1St.Done ∧
    (Modes.mod2Step Modes.mod2Defaults (1/2) Modes.abortEnv Modes.wait4State).1.st =
      Modes.M2St.Done ∧
    (Modes.mod1Step Modes.mod1Defaults (1/2) Modes.abortEnv Modes.mod1Sample).2.ret = true ∧
    (Modes.mod2Step Modes.mod2Defaults (1/2) Modes.abortEnv Modes.wait4State).2.ret = true :=
  ⟨by with_unfolding_all decide,
    (soft_limit_abort_immediate Modes.mod1Defaults Modes.mod2Defaults (1/2) (1/2)
      Modes.abortEnv Modes.mod1Sample Modes.wait4State
      (by with_unfolding_all decide)).1.2.2.2.2.1,
    (soft_limit_abort_immediate Modes.mod1Defaults Modes.mod2Defaults (1/2) (1/2)
      Modes.abortEnv Modes.mod1Sample Modes.wait4State
      (by with_unfolding_all decide)).2.2.2.2.2.1,
    (soft_limit_abort_immediate Modes.mod1Defaults Modes.mod2Defaults (1/2) (1/2)
      Modes.abortEnv Modes.mod1Sample Modes.wait4State
      (by with_unfolding_all decide)).1.2.2.2.2.2,
    (soft_limit_abort_immediate Modes.mod1Defaults Modes.mod2Defaults (1/2) (1/2)
      Modes.abortEnv Modes.mod1Sample Modes.wait4State
      (by with_unfolding_all decide)).2.2.2.2.2.2⟩

/-- C1: in Mod2Mode's RelayHold phase with the 2 s pre-etch period elapsed and
the default parameters (etching threshold 0.05 A), a long-window smoothed
current of 0.01 A is at or below the threshold, yet the machine does not turn
the 30 V supply off or advance: the hold-completion expression
`I <= I <= threshold` evaluates as `(I <= I) <= threshold`, i.e. `1.0 <= 0.05`,
independent of the smoothed current. -/
theorem mod2_hold_ignores_current :
    (MovingAverage.update 200 1000 Modes.holdState.iavg Modes.holdEnv.irms).2 = 1/100 ∧
    ((1 : ℚ)/100 ≤ Modes.mod2Defaults.etchingThreshold_A) ∧
    (2000 ≤ usub32 Modes.holdEnv.now Modes.holdState.etchStart) ∧
    (Modes.mod2Step Modes.mod2Defaults (1/2) Modes.holdEnv Modes.holdState).1.st =
      Modes.M2St.RelayHold ∧
    (Modes.mod2Step Modes.mod2Defaults (1/2) Modes.holdEnv Modes.holdState).1.relay2 = false := by
  with_unfolding_all decide

/-- The RelayHold completion test in the source fires exactly when the
configured threshold is at least 1.0 A, whatever the smoothed current is. -/
theorem mod2_hold_condition_constant (I t : ℚ) : (cppLe I I ≤ t) ↔ (1 ≤ t) := by
  simp [cppLe]

/-- C3 counterexample: the very first `HomeMode::step` call after `begin()`
with the limit switch already asserted executes a blocking `delay(200)` -
200 000 microseconds, far above the sub-10-microsecond pulse delays (and the
completion phase later blocks 2000 ms per call). -/
theorem home_step_blocks_200ms :
    (Modes.homeStep ⟨0, 30, 0, 0, false, true⟩ Modes.homeInit).2.delayMs = 200 ∧
    10 < 200 * 1000 := by
  with_unfolding_all decide

/-- C3 (amended): `Mod1Mode::step` and `Mod2Mode::step` never execute a
blocking delay - their waits are all non-blocking timestamp comparisons - but
`HomeMode::step` blocks for exactly 200 ms on the tick where the limit switch
triggers and for 2000 ms on every tick of its completion phase. -/
theorem step_blocking_delays_characterized :
    (∀ (pp : Modes.Mod1P) (thr : ℚ) (e : Modes.Env) (s : Modes.Mod1S),
      (Modes.mod1Step pp thr e s).2.delayMs = 0) ∧
    (∀ (pp : Modes.Mod2P) (thr : ℚ) (e : Modes.Env) (s : Modes.Mod2S),
      (Modes.mod2Step pp thr e s).2.delayMs = 0) ∧
    (∀ (e : Modes.Env) (s : Modes.HomeS),
      (Modes.homeStep e s).2.delayMs =
        if s.homed = false then (if e.limitLow then 200 else 0)
        else if s.baselineMeasuring then 0
        else if s.baselineDone then 2000
        else 0) := by
  refine ⟨?_, ?_, ?_⟩
  · intro pp thr e s
    simp only [Modes.mod1Step]
    repeat' split
    all_goals rfl
  · intro pp thr e s
    simp only [Modes.mod2Step]
    repeat' split
    all_goals rfl
  · intro e s
    simp only [Modes.homeStep]
    cases hh : s.homed <;> cases hm : s.baselineMeasuring <;> cases hd : s.baselineDone <;>
      simp [hh, hm, hd] <;> repeat' split <;> rfl

/-- One `Mod2Mode::step` tick preserves well-formedness of the pulse-train
region and advances the 9 V ON counter and move-command counter exactly as
the potential functions prescribe, provided the position stays in the safe
range and the configured pulse count lies in [1, 255]. -/
theorem mod2_pulse_step (pp : Modes.Mod2P) (thr : ℚ) (e : Modes.Env) (s : Modes.Mod2S)
    (hP1 : 1 ≤ pp.pulseCount) (hP255 : pp.pulseCount ≤ 255)
    (hwf : Modes.pulseWF pp.pulseCount s) (hsafe : Modes.safeZ e) :
    Modes.pulseWF pp.pulseCount (Modes.mod2Step pp thr e s).1 ∧
    Modes.gPot pp.pulseCount (Modes.mod2Step pp thr e s).1 =
      Modes.gPot pp.pulseCount s +
        (if (Modes.mod2Step pp thr e s).2.on9V then 1 else 0) ∧
    Modes.lPot (Modes.mod2Step pp thr e s).1 =
      Modes.lPot s + (Modes.mod2Step pp thr e s).2.moveCmds.length ∧
    (Modes.mod2Step pp thr e s).2.moveCmds.count ((-30 : ℚ), (3 : ℚ)) =
      (Modes.mod2Step pp thr e s).2.moveCmds.length := by
  have hz : ¬ (e.z ≤ 3/2 ∨ 75 ≤ e.z) := by
    obtain ⟨ha, hb⟩ := hsafe
    push_neg
    exact ⟨by linarith, by linarith⟩
  rcases hwf with hst | ⟨hst, hc, hr2, hr1⟩ | ⟨hst, hr1, hr2⟩ | ⟨hst, hr1, hr2⟩
  · -- Wait4
    simp only [Modes.mod2Step, if_neg hz, hst]
    split
    · refine ⟨Or.inr (Or.inl ⟨rfl, ?_, rfl, rfl⟩), ?_, ?_, ?_⟩
      · show ((0 : ℕ) : ℤ) < pp.pulseCount
        omega
      · simp [Modes.gPot, hst]
      · simp [Modes.lPot, hst]
      · simp
    · exact ⟨Or.inl hst, by simp [Modes.gPot, hst], by simp [Modes.lPot, hst], by simp⟩
  · -- RelayPulse
    have hc255 : s.pulseCount < 255 := by omega
    simp only [Modes.mod2Step, if_neg hz, hst]
    by_cases hro : s.relayOn = true
    · rw [if_pos hro]
      split
      · -- ON phase ends
        refine ⟨Or.inr (Or.inl ⟨rfl, hc, rfl, rfl⟩), ?_, ?_, ?_⟩
        · simp [Modes.gPot, hst]
        · simp [Modes.lPot, hst]
        · simp
      · exact ⟨Or.inr (Or.inl ⟨hst, hc, hr2, hr1⟩),
          by simp [Modes.gPot, hst], by simp [Modes.lPot, hst], by simp⟩
    · rw [if_neg hro]
      have hro' : s.relayOn = false := by
        revert hro
        cases s.relayOn <;> simp
      split
      · -- OFF phase ends: counter increments without wrap
        have hcc : (s.pulseCount + 1) % 256 = s.pulseCount + 1 :=
          Nat.mod_eq_of_lt (by omega)
        simp only [hcc]
        split
        · -- pulse train complete, enter FinalLift
          rename_i hPle
          refine ⟨Or.inr (Or.inr (Or.inl ⟨rfl, ?_, hr2⟩)), ?_, ?_, ?_⟩
          · rw [hr1, hro']
            rfl
          · have hPeq : pp.pulseCount.toNat = s.pulseCount + 1 := by omega
            simp [Modes.gPot, hst, hPeq]
          · simp [Modes.lPot, hst]
          · simp [List.count_cons]
        · -- next pulse: 9 V on again
          rename_i hPgt
          refine ⟨Or.inr (Or.inl ⟨rfl, ?_, rfl, rfl⟩), ?_, ?_, ?_⟩
          · show ((s.pulseCount + 1 : ℕ) : ℤ) < pp.pulseCount
            omega
          · simp [Modes.gPot, hst]
          · simp [Modes.lPot, hst]
          · simp
      · exact ⟨Or.inr (Or.inl ⟨hst, hc, hr2, hr1⟩),
          by simp [Modes.gPot, hst], by simp [Modes.lPot, hst], by simp⟩
  · -- FinalLift
    simp only [Modes.mod2Step, if_neg hz, hst]
    split
    · exact ⟨Or.inr (Or.inr (Or.inl ⟨hst, hr1, hr2⟩)),
        by simp [Modes.gPot, hst], by simp [Modes.lPot, hst], by simp⟩
    · refine ⟨Or.inr (Or.inr (Or.inr ⟨rfl, rfl, rfl⟩)), ?_, ?_, ?_⟩
      · simp [Modes.gPot, hst]
      · simp [Modes.lPot, hst]
      · simp
  · -- Done
    simp only [Modes.mod2Step, if_neg hz, hst]
    exact ⟨Or.inr (Or.inr (Or.inr ⟨hst, hr1, hr2⟩)),
      by simp [Modes.gPot, hst], by simp [Modes.lPot, hst], by simp⟩

/-- Accounting over a whole run through the pulse-train region: the ON and
move counters accumulated by `mod2RunAux` equal the potential differences. -/
theorem mod2_pulse_runAux (pp : Modes.Mod2P) (thr : ℚ)
    (hP1 : 1 ≤ pp.pulseCount) (hP255 : pp.pulseCount ≤ 255) :
    ∀ (es : List Modes.Env) (s : Modes.Mod2S) (t : Modes.M2Stats),
      Modes.pulseWF pp.pulseCount s → (∀ e ∈ es, Modes.safeZ e) →
      Modes.pulseWF pp.pulseCount (Modes.mod2RunAux pp thr (s, t) es).1 ∧
      Modes.gPot pp.pulseCount (Modes.mod2RunAux pp thr (s, t) es).1 + t.ons =
        Modes.gPot pp.pulseCount s + (Modes.mod2RunAux pp thr (s, t) es).2.ons ∧
      Modes.lPot (Modes.mod2RunAux pp thr (s, t) es).1 + t.moves =
        Modes.lPot s + (Modes.mod2RunAux pp thr (s, t) es).2.moves ∧
      Modes.lPot (Modes.mod2RunAux pp thr (s, t) es).1 + t.lifts =
        Modes.lPot s + (Modes.mod2RunAux pp thr (s, t) es).2.lifts := by
  intro es
  induction es with
  | nil =>
      intro s t hwf hsafe
      exact ⟨hwf, rfl, rfl, rfl⟩
  | cons e es ih =>
      intro s t hwf hsafe
      have hse : Modes.safeZ e := hsafe e (List.mem_cons_self e es)
      obtain ⟨hwf1, hg, hl, hcnt⟩ :=
        mod2_pulse_step pp thr e s hP1 hP255 hwf hse
      obtain ⟨hwfF, hgF, hlF, hliftF⟩ :=
        ih (Modes.mod2Step pp thr e s).1 (Modes.statsAdd t (Modes.mod2Step pp thr e s).2)
          hwf1 (fun e2 he2 => hsafe e2 (List.mem_cons_of_mem _ he2))
      have hunf : Modes.mod2RunAux pp thr (s, t) (e :: es) =
          Modes.mod2RunAux pp thr
            ((Modes.mod2Step pp thr e s).1, Modes.statsAdd t (Modes.mod2Step pp thr e s).2)
            es := rfl
      rw [hunf]
      refine ⟨hwfF, ?_, ?_, ?_⟩
      · have ht : (Modes.statsAdd t (Modes.mod2Step pp thr e s).2).ons =
            t.ons + (if (Modes.mod2Step pp thr e s).2.on9V then 1 else 0) := rfl
        rw [ht] at hgF
        omega
      · have ht : (Modes.statsAdd t (Modes.mod2Step pp thr e s).2).moves =
            t.moves + (Modes.mod2Step pp thr e s).2.moveCmds.length := rfl
        rw [ht] at hlF
        omega
      · have ht : (Modes.statsAdd t (Modes.mod2Step pp thr e s).2).lifts =
            t.lifts + (Modes.mod2Step pp thr e s).2.moveCmds.count ((-30 : ℚ), (3 : ℚ)) := rfl
        rw [ht] at hliftF
        omega

/-- C6 (amended): a run of Mod2Mode that enters the pulse phase from `Wait4`
with configured pulse count 1 ≤ P ≤ 255, staying inside the soft travel range,
and whose trace ends in the terminal Done state, switches the secondary 9 V
supply ON exactly P times, issues exactly one `moveRelativeMm` command - the
final (-30 mm, 3 mm/s) lift - and ends with both relay outputs HIGH (voltage
off).  (The bound P ≤ 255 is forced by the 8-bit pulse counter: for P ≥ 256
the counter wraps and the train never terminates.) -/
theorem mod2_pulse_train_exact (pp : Modes.Mod2P) (thr : ℚ) (s : Modes.Mod2S)
    (es : List Modes.Env)
    (hP1 : 1 ≤ pp.pulseCount) (hP255 : pp.pulseCount ≤ 255)
    (hst : s.st = Modes.M2St.Wait4)
    (hsafe : ∀ e ∈ es, Modes.safeZ e)
    (hdone : (Modes.mod2Run pp thr s es).1.st = Modes.M2St.Done) :
    (Modes.mod2Run pp thr s es).2.ons = pp.pulseCount.toNat ∧
    (Modes.mod2Run pp thr s es).2.moves = 1 ∧
    (Modes.mod2Run pp thr s es).2.lifts = 1 ∧
    (Modes.mod2Run pp thr s es).1.relay1 = true ∧
    (Modes.mod2Run pp thr s es).1.relay2 = true := by
  obtain ⟨hwfF, hg, hm, hl⟩ :=
    mod2_pulse_runAux pp thr hP1 hP255 es s ⟨0, 0, 0⟩ (Or.inl hst) hsafe
  have hrun : Modes.mod2Run pp thr s es = Modes.mod2RunAux pp thr (s, ⟨0, 0, 0⟩) es := rfl
  rw [hrun] at hdone ⊢
  have hr12 : (Modes.mod2RunAux pp thr (s, ⟨0, 0, 0⟩) es).1.relay1 = true ∧
      (Modes.mod2RunAux pp thr (s, ⟨0, 0, 0⟩) es).1.relay2 = true := by
    rcases hwfF with h | ⟨h, -⟩ | ⟨h, -⟩ | ⟨-, h1, h2⟩
    · rw [hdone] at h
      exact absurd h (by decide)
    · rw [hdone] at h
      exact absurd h (by decide)
    · rw [hdone] at h
      exact absurd h (by decide)
    · exact ⟨h1, h2⟩
  have hgF : Modes.gPot pp.pulseCount (Modes.mod2RunAux pp thr (s, ⟨0, 0, 0⟩) es).1 =
      pp.pulseCount.toNat := by
    simp [Modes.gPot, hdone]
  have hg0 : Modes.gPot pp.pulseCount s = 0 := by
    simp [Modes.gPot, hst]
  have hlF : Modes.lPot (Modes.mod2RunAux pp thr (s, ⟨0, 0, 0⟩) es).1 = 1 := by
    simp [Modes.lPot, hdone]
  have hl0 : Modes.lPot s = 0 := by
    simp [Modes.lPot, hst]
  rw [hgF, hg0] at hg
  rw [hlF, hl0] at hm hl
  simp at hg hm hl
  exact ⟨by omega, by omega, by omega, hr12.1, hr12.2⟩

/-- Witness for the amended C6: pulse count 2 with unit durations over six
1 ms ticks - the 9 V supply goes ON exactly twice, one final lift is issued,
and the run ends in Done with both relays HIGH. -/
theorem mod2_pulse_train_exact_witness :
    ((1 : ℤ) ≤ Modes.pulseParams2.pulseCount) ∧
    (Modes.pulseParams2.pulseCount ≤ 255) ∧
    (Modes.wait4State.st = Modes.M2St.Wait4) ∧
    ((Modes.mod2Run Modes.pulseParams2 (1/2) Modes.wait4State Modes.pulse2Envs).1.st =
      Modes.M2St.Done) ∧
    ((Modes.mod2Run Modes.pulseParams2 (1/2) Modes.wait4State Modes.pulse2Envs).2.ons =
      Modes.pulseParams2.pulseCount.toNat ∧
     (Modes.mod2Run Modes.pulseParams2 (1/2) Modes.wait4State Modes.pulse2Envs).2.moves = 1 ∧
     (Modes.mod2Run Modes.pulseParams2 (1/2) Modes.wait4State Modes.pulse2Envs).2.lifts = 1 ∧
     (Modes.mod2Run Modes.pulseParams2 (1/2) Modes.wait4State Modes.pulse2Envs).1.relay1 = true ∧
     (Modes.mod2Run Modes.pulseParams2 (1/2) Modes.wait4State Modes.pulse2Envs).1.relay2 = true) :=
  ⟨by decide, by decide, rfl, by with_unfolding_all decide,
    mod2_pulse_train_exact Modes.pulseParams2 (1/2) Modes.wait4State Modes.pulse2Envs
      (by decide) (by decide) rfl
      (by
        intro e he
        fin_cases he <;> constructor <;> norm_num [Modes.safeZ])
      (by with_unfolding_all decide)⟩

set_option maxRecDepth 100000 in
/-- C6 counterexample: with configured pulse count 256 (the editor admits
values up to 999) a run that enters the pulse phase switches the 9 V supply
ON 257 times and is still pulsing: the `uint8_t` pulse counter wraps past
255, so the train never produces "exactly P" ON phases nor terminates. -/
theorem mod2_pulse_count_wraps :
    (Modes.pulseParams256.pulseCount = 256) ∧
    ((1 : ℤ) ≤ Modes.pulseParams256.pulseCount) ∧
    (Modes.wait4State.st = Modes.M2St.Wait4) ∧
    ((Modes.mod2Run Modes.pulseParams256 (1/2) Modes.wait4State Modes.wrapEnvs).2.ons = 257) ∧
    ((Modes.mod2Run Modes.pulseParams256 (1/2) Modes.wait4State Modes.wrapEnvs).2.lifts = 0) ∧
    ((Modes.mod2Run Modes.pulseParams256 (1/2) Modes.wait4State Modes.wrapEnvs).1.st =
      Modes.M2St.RelayPulse) := by
  refine ⟨rfl, by decide, rfl, ?_, ?_, ?_⟩ <;> with_unfolding_all decide
